import Mathlib

/-!
Verification of the probability / temporal-modeling engine and the fuzzy
lookup function of the Typical RNG Calculator (`src/app.py`).

Modelling conventions:
* Python dicts keyed by item name are modelled as association lists
  `List (String × α)` in insertion order, with `dictInsert` reproducing
  Python's `d[k] = v` (update in place if the key exists, else append).
* Python numbers (ints and floats) are modelled as exact rationals `ℚ`;
  the transcendental functions `math.exp` / `math.log` are modelled by
  `Real.exp` / `Real.log` over `ℝ` with rationals cast in.
* A Python `KeyError` escaping a method (`probs[target]` on a missing key)
  is modelled by an `Option`-valued function returning `none`.
* `float('inf')` sentinels are modelled by a dedicated constructor
  (`TimeQ.infinite` / `TimeR.infinite`).
* `expected_per_event` guards on the *truthiness* of its argument
  (`if target_sans:`); the model only covers non-empty target names, and
  theorems about it carry a `target ≠ ""` hypothesis.
-/

namespace RngCalc

/-- One entry of `self.sans_list` as built by `SansCalculator.setup`
(`src/app.py` lines 100–109): the dict `{"name": …, "chance": …, "is_raw": …}`. -/
structure SansEntry where
  name : String
  chance : ℚ
  is_raw : Bool
deriving DecidableEq

/-- One value of the `probabilities` dict built by
`SansCalculator.calculate_probabilities` (`src/app.py` lines 141–152). -/
structure ProbInfo where
  probability : ℚ
  percentage : ℚ
  individual_probability : ℚ
  individual_percentage : ℚ
  is_raw : Bool
  chance : ℚ
deriving DecidableEq

/-- The state of a `SansCalculator` object after `setup`
(`src/app.py` lines 88–95). -/
structure SansCalculator where
  sans_list : List SansEntry
  server_luck : ℚ
deriving DecidableEq

/-- Python dict assignment `d[k] = v` on an association list: if the key is
present its value is updated in place, otherwise the pair is appended. -/
def dictInsert {α : Type} (d : List (String × α)) (k : String) (v : α) :
    List (String × α) :=
  if d.any (fun p => p.1 == k) then
    d.map (fun p => if p.1 == k then (k, v) else p)
  else
    d ++ [(k, v)]

/-- Python dict lookup `d[k]` with a default; in the engine every lookup of
`final_probs[sans["name"]]` is on a key that was just inserted, so the
default is never reached. -/
def lookupD {α : Type} (d : List (String × α)) (k : String) (dflt : α) : α :=
  match d.find? (fun p => p.1 == k) with
  | some p => p.2
  | none => dflt

/-- Python `dict.update`: fold the overriding pairs into the base dict
(`sans_data.update(custom_sans)`, `src/app.py` line 274). -/
def dictUpdate {α : Type} (d upd : List (String × α)) : List (String × α) :=
  upd.foldl (fun acc p => dictInsert acc p.1 p.2) d

/-- `DEFAULT_SANS_DATA` (`src/app.py` lines 27–43), in source order. -/
def DEFAULT_SANS_DATA : List (String × ℚ) :=
  [("Little", 2), ("classic", 3), ("Fell", 5), ("outer", 8), ("horror", 25),
   ("Fresh", 32), ("After", 44), ("Killer", 66), ("Dream", 77), ("RuinsDust", 12),
   ("SnowdinDust", 20), ("Photo Negative", 200), ("Assured Prey", 500), ("gencide", 900),
   ("C!insanity", 3666), ("Avenge", 3449), ("Ink", 5000), ("Error", 5000), ("Fatal error", 55555),
   ("Reaper", 99999), ("Pesti", 3500), ("DD (dustdust)", 16666), ("Lethal Deal", 50000), ("Hyper-dust", 99999),
   ("clown", 69420), ("undersanity", 500000), ("Corrupted insanity", 162162), ("Final insanity", 241956),
   ("Superfell", 250000), ("Cone", 100000), ("Weakened alpha", 250000), ("king mutiverse", 333333),
   ("zalgo", 366666), ("error404", 404040), ("omnipotent", 555555), ("infected", 666666),
   ("fatal corruption", 666666), ("virus404", 999999), ("HIM (true insanity)", 1666666),
   ("alpha judge", 399999), ("errordust", 444444), ("true dust", 500000), ("Shanghaivania", 1500000),
   ("lulzsec", 777777), ("containment", 800000), ("negative error404", 1404040), ("omnithorn", 2222220),
   ("DDD (dustdustdust)", 2666666), ("final dust", 2999999), ("butterfly404", 4040404), ("error666", 6666666),
   ("overkill", 16000000), ("loading", 2222222), ("code rainbow", 2222222), ("distortion", 3666666),
   ("entity0", 11111111), ("anti god", 6000000), ("CTI (corrupted true insanity)", 15000000),
   ("roland", 15000000)]

/-- `DEFAULT_UNOBTAINABLE_SANS` (`src/app.py` line 46). -/
def DEFAULT_UNOBTAINABLE_SANS : List String :=
  ["CTI (corrupted true insanity)", "clown", "undersanity", "roland", "anti god"]

/-- `DEFAULT_RAW_SANS` (`src/app.py` line 47). -/
def DEFAULT_RAW_SANS : List String :=
  ["CTI (corrupted true insanity)", "negative error404", "anti god"]

/-- `SansCalculator.setup` (`src/app.py` lines 92–109): drop every item whose
name is in `unobtainable_sans`, tag the survivors RAW iff their name is in
`raw_sans`, and record the luck multiplier. -/
def setup (sans_data : List (String × ℚ)) (raw_sans unobtainable_sans : List String)
    (server_luck : ℚ) : SansCalculator :=
  { sans_list :=
      (sans_data.filter (fun p => !(unobtainable_sans.contains p.1))).map
        (fun p => { name := p.1, chance := p.2, is_raw := raw_sans.contains p.1 }),
    server_luck := server_luck }

/-- The catalog resolution performed by the `/calculate` route
(`src/app.py` lines 262–293): merge `custom_sans` over the default table,
append the custom raw / unobtainable names to the defaults, and run `setup`.
(The blacklist only filters the display rankings and never reaches `setup`.) -/
def resolveWorkingSet (custom_sans : List (String × ℚ))
    (custom_raw custom_unobtainable : List String) (server_luck : ℚ) : SansCalculator :=
  setup (dictUpdate DEFAULT_SANS_DATA custom_sans)
    (DEFAULT_RAW_SANS ++ custom_raw)
    (DEFAULT_UNOBTAINABLE_SANS ++ custom_unobtainable)
    server_luck

/-- The pre-normalization success probability of one item
(`src/app.py` lines 119–128): divide the chance by the luck for non-RAW
items, clamp the result below at 1, and invert. -/
def successProb (luck : ℚ) (e : SansEntry) : ℚ :=
  let chance := if e.is_raw then e.chance else e.chance / luck
  1 / max 1 chance

/-- The `final_probs` dict right after the first loop of
`calculate_probabilities` (`src/app.py` lines 116–129), before normalization. -/
def final_probs_raw (s : SansCalculator) : List (String × ℚ) :=
  s.sans_list.foldl (fun d e => dictInsert d e.name (successProb s.server_luck e)) []

/-- `final_probs` after the normalization step (`src/app.py` lines 131–135):
if the values sum to a positive total, divide every value by it. -/
def final_probs (s : SansCalculator) : List (String × ℚ) :=
  let fp := final_probs_raw s
  let total := (fp.map Prod.snd).sum
  if 0 < total then fp.map (fun p => (p.1, p.2 / total)) else fp

/-- `total_weight` (`src/app.py` line 138): note that it divides by the *raw*
nominal chance, with no clamping and no `max(1, ·)`. -/
def total_weight (s : SansCalculator) : ℚ :=
  (s.sans_list.map
    (fun e => if e.is_raw then 1 / e.chance else s.server_luck / e.chance)).sum

/-- One value of the `probabilities` dict (`src/app.py` lines 142–152); the
reported `individual_probability` also divides by the raw nominal chance,
again without the `max(1, ·)` clamp used for `final_probs`. -/
def probInfoOf (s : SansCalculator) (fp : List (String × ℚ)) (e : SansEntry) : ProbInfo :=
  let final_prob := lookupD fp e.name 0
  let individual_prob := if e.is_raw then 1 / e.chance else s.server_luck / e.chance
  { probability := final_prob,
    percentage := final_prob * 100,
    individual_probability := individual_prob,
    individual_percentage := individual_prob * 100,
    is_raw := e.is_raw,
    chance := e.chance }

/-- `SansCalculator.calculate_probabilities` (`src/app.py` lines 111–154):
returns the detailed per-item dict and the total weight; an empty working
set short-circuits to `({}, 0.0)`. -/
def calculate_probabilities (s : SansCalculator) : List (String × ProbInfo) × ℚ :=
  if s.sans_list = [] then ([], 0)
  else
    let fp := final_probs s
    let probabilities :=
      s.sans_list.foldl (fun d e => dictInsert d e.name (probInfoOf s fp e)) []
    (probabilities, total_weight s)

/-- Every denominator of a division executed inside `calculate_probabilities`,
in source order per item: the luck divisor of line 124 (non-RAW only), the
clamped chance of line 128, the raw chance of the `total_weight` sum
(line 138), the raw chance of `individual_prob` (line 144), and finally the
normalization total of line 135 (which line 133 only uses when positive). -/
def entryDenominators (s : SansCalculator) (e : SansEntry) : List ℚ :=
  (if e.is_raw then [] else [s.server_luck]) ++
    [max 1 (if e.is_raw then e.chance else e.chance / s.server_luck)] ++
    [e.chance] ++ [e.chance]

/-- All division denominators used by one call of `calculate_probabilities`
(see `entryDenominators`). -/
def divisionDenominators (s : SansCalculator) : List ℚ :=
  if s.sans_list = [] then []
  else
    (s.sans_list.map (entryDenominators s)).flatten ++
      (let total := ((final_probs_raw s).map Prod.snd).sum
       if 0 < total then [total] else [])

/-- `SansCalculator.expected_per_event` for a (non-empty) target name
(`src/app.py` lines 156–162): `16 * probs[target]["probability"]`, where the
subscript raises `KeyError` — modelled as `none` — when the target is absent. -/
def expected_per_event (s : SansCalculator) (target : String) : Option ℚ :=
  ((calculate_probabilities s).1.find? (fun p => p.1 == target)).map
    (fun p => 16 * p.2.probability)

/-- `time_per_roll` (`src/app.py` line 173): the constant `2.64`. -/
def time_per_roll : ℚ := 2.64

/-- `events_per_second = 1.0 / time_per_roll` (`src/app.py` line 174). -/
def events_per_second : ℚ := 1 / time_per_roll

/-- `SansCalculator.probability_in_time` (`src/app.py` lines 166–182):
for a missing target it returns the plain pair `(0.0, 0.0)` — no error is
signalled; otherwise it returns `(1 - exp (-λ), λ)` with
`λ = expected_per_event * events_per_second * time_seconds`. -/
noncomputable def probability_in_time (s : SansCalculator) (target : String)
    (t : ℚ) : ℝ × ℝ :=
  if ((calculate_probabilities s).1.find? (fun p => p.1 == target)).isSome then
    let epe : ℚ := (expected_per_event s target).getD 0
    let lam : ℚ := epe * (events_per_second * t)
    ((1 : ℝ) - Real.exp (-(lam : ℝ)), (lam : ℝ))
  else (0, 0)

/-- The value of `time_for_expected_first`: either the `float('inf')`
sentinel or a finite number of seconds. -/
inductive TimeQ where
  | infinite
  | finite (t : ℚ)
deriving DecidableEq

/-- The value of `time_for_certainty`: either the `float('inf')` sentinel or
a finite (real) number of seconds. -/
inductive TimeR where
  | infinite
  | finite (t : ℝ)

/-- `SansCalculator.time_for_expected_first` (`src/app.py` lines 184–193):
`expected_per_event` raises `KeyError` (`none`) on a missing target; a
non-positive rate yields the infinite sentinel, else `1 / (epe * eps)`. -/
def time_for_expected_first (s : SansCalculator) (target : String) : Option TimeQ :=
  (expected_per_event s target).map (fun epe =>
    if epe ≤ 0 then TimeQ.infinite
    else TimeQ.finite (1 / (epe * events_per_second)))

/-- `SansCalculator.time_for_certainty` (`src/app.py` lines 195–205): no
validation of `certainty` is performed; on a missing target the
`expected_per_event` lookup raises `KeyError` (`none`); a non-positive rate
yields the infinite sentinel, else `-log(1 - certainty) / rate`.  (Python's
`math.log` raises on `1 - certainty ≤ 0`; the model is used only at
`certainty < 1`, where `Real.log` agrees with it.) -/
noncomputable def time_for_certainty (s : SansCalculator) (target : String)
    (certainty : ℝ) : Option TimeR :=
  (expected_per_event s target).map (fun (epe : ℚ) =>
    if epe ≤ 0 then TimeR.infinite
    else TimeR.finite (-Real.log (1 - certainty) /
      (((epe : ℚ) : ℝ) * ((events_per_second : ℚ) : ℝ))))

/-- Python `str.lower()` on one character, for the ASCII data of this
catalog (Lean's `String.toLower` is not kernel-reducible, so the model
re-implements ASCII lowercasing). -/
def lowerChar (c : Char) : Char :=
  if c.isUpper then Char.ofNat (c.toNat + 32) else c

/-- Python `str.lower()` of a whole string, as a character list. -/
def lowerStr (s : String) : List Char := s.data.map lowerChar

/-- The five tier scores of `search_sans` (`src/app.py` lines 63–74).  They
are spelled as explicitly reduced rationals so that concrete runs of the
search pipeline can be evaluated by `decide`; the lemmas `tierStarts_eq`,
`tierWord_eq`, `tierSub_eq` and `tierFuzzy_eq` below identify them with the
source's decimal literals `0.8`, `0.6`, `0.4`, `0.2`. -/
def tierExact : ℚ := 1

/-- Tier score 0.8: name starts with query. -/
def tierStarts : ℚ := ⟨4, 5, by decide, by decide⟩

/-- Tier score 0.6: word-boundary match. -/
def tierWord : ℚ := ⟨3, 5, by decide, by decide⟩

/-- Tier score 0.4: substring match. -/
def tierSub : ℚ := ⟨2, 5, by decide, by decide⟩

/-- Tier score 0.2: fuzzy (character-sequence) match. -/
def tierFuzzy : ℚ := ⟨1, 5, by decide, by decide⟩

/-- Python word character for `\b`: `[A-Za-z0-9_]` (ASCII data only here). -/
def isWordChar (c : Char) : Bool := c.isAlphanum || c == '_'

/-- Word-character test at an index, out-of-range counting as non-word. -/
def wordAt (s : List Char) (i : Nat) : Bool :=
  match s[i]? with
  | some c => isWordChar c
  | none => false

/-- Python's `\b` at position `p` of `s`: exactly one of the character before
`p` and the character at `p` is a word character. -/
def boundaryAt (s : List Char) (p : Nat) : Bool :=
  (decide (p ≠ 0) && wordAt s (p - 1)) != wordAt s p

/-- `q` occurs in `s` as a contiguous block starting at index `i`. -/
def occursAt (q s : List Char) (i : Nat) : Bool :=
  decide ((s.drop i).take q.length = q)

/-- Python's substring test `query in sans_lower`. -/
def substringB (q s : List Char) : Bool :=
  (List.range (s.length + 1)).any (occursAt q s)

/-- `re.search(r'\b' + re.escape(query) + r'\b', sans_lower)`
(`src/app.py` line 66): the escaped query occurs contiguously with a word
boundary on each side. -/
def wordBoundaryB (q s : List Char) : Bool :=
  (List.range (s.length + 1)).any
    (fun i => occursAt q s i && boundaryAt s i && boundaryAt s (i + q.length))

/-- One character of the *unescaped* pattern `'.*'.join(query)`
(`src/app.py` line 72): `'.'` is the regex wildcard and matches any
character; any other (non-special) character matches itself. -/
def charPatMatches (p c : Char) : Bool := p == '.' || p == c

/-- `re.search('.*'.join(query), sans_lower)` (`src/app.py` lines 72–73) for
queries whose characters are either `'.'` or regex-literal: the query
characters must appear in order, each matching under `charPatMatches`.
(Greedy matching is equivalent to the regex's existential semantics because
every pattern atom is an independent single-character predicate.) -/
def fuzzyMatch : List Char → List Char → Bool
  | [], _ => true
  | _ :: _, [] => false
  | p :: ps, c :: cs =>
    if charPatMatches p c then fuzzyMatch ps cs else fuzzyMatch (p :: ps) cs

/-- The characters that are special in a Python regular expression; the
fuzzy tier of `search_sans` does not escape them. -/
def regexSpecials : List Char :=
  ['.', '^', '$', '*', '+', '?', '(', ')', '[', ']', '\x7b', '\x7d', '\\', '|']

/-- The tiered score of one (already lowercased) name against one (already
lowercased) query (`src/app.py` lines 59–76). -/
def matchScore (q s : List Char) : ℚ :=
  if s = q then tierExact
  else if occursAt q s 0 then tierStarts
  else if wordBoundaryB q s then tierWord
  else if substringB q s then tierSub
  else if fuzzyMatch q s then tierFuzzy
  else 0

/-- Stable insertion of `x` into a sorted list: `x` goes before the first
element strictly greater than it, hence after any equal keys. -/
def insertSorted {α : Type} (lt : α → α → Bool) (x : α) : List α → List α
  | [] => [x]
  | y :: ys => if lt y x then y :: insertSorted lt x ys else x :: y :: ys

/-- Stable sort (model of Python's stable `list.sort(key=...)`). -/
def sortByKey {α : Type} (lt : α → α → Bool) : List α → List α
  | [] => []
  | x :: xs => insertSorted lt x (sortByKey lt xs)

/-- Lexicographic comparison of character lists by code point — the
semantics of Python's `<` on strings (Lean's `String.ltb` is not
kernel-reducible, so the model re-implements it). -/
def charListLt : List Char → List Char → Bool
  | [], [] => false
  | [], _ :: _ => true
  | _ :: _, [] => false
  | c :: cs, d :: ds => if c < d then true else if d < c then false else charListLt cs ds

/-- The comparator of `results.sort(key=lambda x: (-x[1], x[0]))`
(`src/app.py` line 82): strictly smaller means higher score, ties broken by
lexicographically smaller name. -/
def searchLt (a b : String × ℚ) : Bool :=
  decide (b.2 < a.2) || (a.2 == b.2 && charListLt a.1.data b.1.data)

/-- `search_sans` (`src/app.py` lines 50–83): empty query returns the first
ten names with score 0; otherwise score each lowercased name against the
lowercased query, keep positive scores, sort by descending score then
ascending name, and truncate to 15. -/
def search_sans (query : String) (sans_list : List String) : List (String × ℚ) :=
  if query = "" then (sans_list.take 10).map (fun name => (name, 0))
  else
    let q := lowerStr query
    let results := sans_list.filterMap (fun sans =>
      let score := matchScore q (lowerStr sans)
      if 0 < score then some (sans, score) else none)
    (sortByKey searchLt results).take 15

/-- The subsequence criterion in the words of the specification: every
character of the query occurs in the name in order, not necessarily
contiguously.  (Greedy matching decides subsequence-hood.) -/
def subsequenceSpec : List Char → List Char → Bool
  | [], _ => true
  | _ :: _, [] => false
  | p :: ps, c :: cs =>
    if p == c then subsequenceSpec ps cs else subsequenceSpec (p :: ps) cs

/-! Characterization lemmas -/

lemma successProb_pos (luck : ℚ) (e : SansEntry) : 0 < successProb luck e := by
  have h : (0 : ℚ) < max 1 (if e.is_raw then e.chance else e.chance / luck) :=
    lt_of_lt_of_le one_pos (le_max_left _ _)
  simp only [successProb]
  exact div_pos one_pos h

lemma dictInsert_eq_append {α : Type} (d : List (String × α)) (k : String) (v : α)
    (h : ∀ p ∈ d, p.1 ≠ k) : dictInsert d k v = d ++ [(k, v)] := by
  have hany : d.any (fun p => p.1 == k) = false := by
    simp only [List.any_eq_false]
    intro p hp
    simpa using h p hp
  simp [dictInsert, hany]

lemma foldl_dictInsert_eq {α : Type} (f : SansEntry → α) :
    ∀ (l : List SansEntry) (d : List (String × α)),
      (l.map SansEntry.name).Nodup → (∀ p ∈ d, p.1 ∉ l.map SansEntry.name) →
      l.foldl (fun acc e => dictInsert acc e.name (f e)) d =
        d ++ l.map (fun e => (e.name, f e)) := by
  intro l
  induction l with
  | nil => intro d _ _; simp
  | cons x xs ih =>
    intro d hnd hd
    have hx : ∀ p ∈ d, p.1 ≠ x.name := by
      intro p hp
      have := hd p hp
      simp only [List.map_cons, List.mem_cons, not_or] at this
      exact this.1
    have hstep : dictInsert d x.name (f x) = d ++ [(x.name, f x)] :=
      dictInsert_eq_append d x.name (f x) hx
    have hnd' : (xs.map SansEntry.name).Nodup := by
      simpa using hnd.of_cons
    have hxname : x.name ∉ xs.map SansEntry.name := by
      have := hnd
      simp only [List.map_cons, List.nodup_cons] at this
      exact this.1
    have hd' : ∀ p ∈ d ++ [(x.name, f x)], p.1 ∉ xs.map SansEntry.name := by
      intro p hp
      rcases List.mem_append.mp hp with hp1 | hp2
      · have := hd p hp1
        simp only [List.map_cons, List.mem_cons, not_or] at this
        exact this.2
      · simp only [List.mem_singleton] at hp2
        subst hp2
        exact hxname
    calc (x :: xs).foldl (fun acc e => dictInsert acc e.name (f e)) d
        = xs.foldl (fun acc e => dictInsert acc e.name (f e)) (d ++ [(x.name, f x)]) := by
          simp [List.foldl_cons, hstep]
      _ = (d ++ [(x.name, f x)]) ++ xs.map (fun e => (e.name, f e)) := ih _ hnd' hd'
      _ = d ++ (x :: xs).map (fun e => (e.name, f e)) := by simp

lemma final_probs_raw_eq (s : SansCalculator)
    (hnd : (s.sans_list.map SansEntry.name).Nodup) :
    final_probs_raw s =
      s.sans_list.map (fun e => (e.name, successProb s.server_luck e)) := by
  simpa [final_probs_raw] using
    foldl_dictInsert_eq (successProb s.server_luck) s.sans_list [] hnd (by simp)

lemma final_probs_raw_sum (s : SansCalculator)
    (hnd : (s.sans_list.map SansEntry.name).Nodup) :
    ((final_probs_raw s).map Prod.snd).sum =
      (s.sans_list.map (fun e => successProb s.server_luck e)).sum := by
  rw [final_probs_raw_eq s hnd, List.map_map]
  rfl

lemma successProb_sum_pos (s : SansCalculator) (hne : s.sans_list ≠ []) :
    0 < (s.sans_list.map (fun e => successProb s.server_luck e)).sum := by
  apply List.sum_pos
  · intro a ha
    rcases List.mem_map.mp ha with ⟨e, _, rfl⟩
    exact successProb_pos _ _
  · simpa using hne

lemma final_probs_eq (s : SansCalculator)
    (hnd : (s.sans_list.map SansEntry.name).Nodup) (hne : s.sans_list ≠ []) :
    final_probs s =
      s.sans_list.map (fun e => (e.name,
        successProb s.server_luck e /
          (s.sans_list.map (fun x => successProb s.server_luck x)).sum)) := by
  have hpos := successProb_sum_pos s hne
  rw [final_probs, final_probs_raw_sum s hnd, if_pos hpos, final_probs_raw_eq s hnd]
  simp

lemma find?_map_name {α : Type} (g : SansEntry → α) :
    ∀ (l : List SansEntry) (e : SansEntry),
      (l.map SansEntry.name).Nodup → e ∈ l →
      (l.map (fun x => (x.name, g x))).find? (fun p => p.1 == e.name) =
        some (e.name, g e) := by
  intro l
  induction l with
  | nil => intro e _ he; simp at he
  | cons x xs ih =>
    intro e hnd he
    have hxname : x.name ∉ xs.map SansEntry.name := by
      have := hnd
      simp only [List.map_cons, List.nodup_cons] at this
      exact this.1
    have hnd' : (xs.map SansEntry.name).Nodup := by simpa using hnd.of_cons
    by_cases hx : x.name = e.name
    · have hex : e = x := by
        rcases List.mem_cons.mp he with h | h
        · exact h
        · exfalso
          exact hxname (hx ▸ List.mem_map.mpr ⟨e, h, rfl⟩)
      subst hex
      simp [List.find?]
    · have he' : e ∈ xs := by
        rcases List.mem_cons.mp he with h | h
        · exact absurd (h ▸ rfl) hx
        · exact h
      have : (x.name == e.name) = false := by simpa using hx
      simp [List.find?, this, ih e hnd' he']

lemma lookupD_map_name {α : Type} (g : SansEntry → α) (l : List SansEntry)
    (e : SansEntry) (dflt : α) (hnd : (l.map SansEntry.name).Nodup) (he : e ∈ l) :
    lookupD (l.map (fun x => (x.name, g x))) e.name dflt = g e := by
  rw [lookupD, find?_map_name g l e hnd he]

lemma calculate_probabilities_fst (s : SansCalculator)
    (hnd : (s.sans_list.map SansEntry.name).Nodup) (hne : s.sans_list ≠ []) :
    (calculate_probabilities s).1 =
      s.sans_list.map (fun e => (e.name, probInfoOf s (final_probs s) e)) := by
  rw [calculate_probabilities, if_neg hne]
  simpa using
    foldl_dictInsert_eq (fun e => probInfoOf s (final_probs s) e) s.sans_list [] hnd
      (by simp)

lemma probInfoOf_probability (s : SansCalculator) (e : SansEntry)
    (hnd : (s.sans_list.map SansEntry.name).Nodup) (he : e ∈ s.sans_list) :
    (probInfoOf s (final_probs s) e).probability =
      successProb s.server_luck e /
        (s.sans_list.map (fun x => successProb s.server_luck x)).sum := by
  have hne : s.sans_list ≠ [] := List.ne_nil_of_mem he
  have : (probInfoOf s (final_probs s) e).probability = lookupD (final_probs s) e.name 0 :=
    rfl
  rw [this, final_probs_eq s hnd hne]
  exact lookupD_map_name _ s.sans_list e 0 hnd he

lemma probInfoOf_probability_pos (s : SansCalculator) (e : SansEntry)
    (hnd : (s.sans_list.map SansEntry.name).Nodup) (he : e ∈ s.sans_list) :
    0 < (probInfoOf s (final_probs s) e).probability := by
  rw [probInfoOf_probability s e hnd he]
  exact div_pos (successProb_pos _ _) (successProb_sum_pos s (List.ne_nil_of_mem he))

lemma calc_find?_present (s : SansCalculator) (e : SansEntry)
    (hnd : (s.sans_list.map SansEntry.name).Nodup) (he : e ∈ s.sans_list) :
    (calculate_probabilities s).1.find? (fun p => p.1 == e.name) =
      some (e.name, probInfoOf s (final_probs s) e) := by
  rw [calculate_probabilities_fst s hnd (List.ne_nil_of_mem he)]
  exact find?_map_name _ s.sans_list e hnd he

lemma expected_per_event_present (s : SansCalculator) (e : SansEntry)
    (hnd : (s.sans_list.map SansEntry.name).Nodup) (he : e ∈ s.sans_list) :
    expected_per_event s e.name =
      some (16 * (probInfoOf s (final_probs s) e).probability) := by
  rw [expected_per_event, calc_find?_present s e hnd he]
  rfl

lemma sum_map_div {α : Type} (l : List α) (f : α → ℚ) (t : ℚ) :
    (l.map (fun x => f x / t)).sum = (l.map f).sum / t := by
  induction l with
  | nil => simp
  | cons x xs ih => simp [ih, add_div]

lemma tierExact_eq : tierExact = 1.0 := by
  rw [tierExact]
  norm_num

lemma tierStarts_eq : tierStarts = 0.8 := by
  rw [tierStarts, Rat.mk'_eq_divInt, Rat.divInt_eq_div]
  norm_num

lemma tierWord_eq : tierWord = 0.6 := by
  rw [tierWord, Rat.mk'_eq_divInt, Rat.divInt_eq_div]
  norm_num

lemma tierSub_eq : tierSub = 0.4 := by
  rw [tierSub, Rat.mk'_eq_divInt, Rat.divInt_eq_div]
  norm_num

lemma tierFuzzy_eq : tierFuzzy = 0.2 := by
  rw [tierFuzzy, Rat.mk'_eq_divInt, Rat.divInt_eq_div]
  norm_num

/-! Claim C1 -/

/-- Claim C1: for every non-empty working set (with distinct item names, as
guaranteed by the Python dict the catalog comes from, and a luck multiplier
≥ 1 as the engine's contract requires), the normalized probabilities
returned by `calculate_probabilities` sum exactly to 1; for an empty
working set the result is the empty mapping (and zero total weight) rather
than an error. -/
theorem C1_normalized_sum (s : SansCalculator)
    (hnd : (s.sans_list.map SansEntry.name).Nodup) (_hl : 1 ≤ s.server_luck) :
    (s.sans_list ≠ [] →
      ((calculate_probabilities s).1.map (fun p => p.2.probability)).sum = 1) ∧
    (s.sans_list = [] → calculate_probabilities s = ([], 0)) := by
  constructor
  · intro hne
    rw [calculate_probabilities_fst s hnd hne, List.map_map]
    have hcongr :
        s.sans_list.map ((fun p => p.2.probability) ∘
            fun e => (e.name, probInfoOf s (final_probs s) e)) =
          s.sans_list.map (fun e =>
            successProb s.server_luck e /
              (s.sans_list.map (fun x => successProb s.server_luck x)).sum) := by
      apply List.map_congr_left
      intro e he
      exact probInfoOf_probability s e hnd he
    rw [hcongr, sum_map_div]
    exact div_self (ne_of_gt (successProb_sum_pos s hne))
  · intro hemp
    rw [calculate_probabilities, if_pos hemp]

/-- Witness for C1 at a concrete two-item working set. -/
theorem C1_witness :
    ((((setup [("Little", 2), ("classic", 3)] [] [] 8).sans_list.map
        SansEntry.name).Nodup) ∧
      (1 : ℚ) ≤ (setup [("Little", 2), ("classic", 3)] [] [] 8).server_luck) ∧
    ((calculate_probabilities (setup [("Little", 2), ("classic", 3)] [] [] 8)).1.map
        (fun p => p.2.probability)).sum = 1 :=
  ⟨⟨by decide, by decide⟩,
    (C1_normalized_sum (setup [("Little", 2), ("classic", 3)] [] [] 8)
      (by decide) (by decide)).1 (by decide)⟩

/-! Claim C2 -/

/-- Claim C2 counterexample: for the NORMAL item with nominal chance 5 under
luck 100, the engine reports `individual_probability = 20` (namely
`luck / chance`, with no flooring), not the claimed
`1 / max(1, chance / luck) = 1`. -/
theorem C2_counterexample :
    (((calculate_probabilities (setup [("Fell", 5)] [] [] 100)).1.find?
        (fun p => p.1 == "Fell")).map (fun p => p.2.individual_probability) =
      some 20) ∧
    (((calculate_probabilities (setup [("Fell", 5)] [] [] 100)).1.find?
        (fun p => p.1 == "Fell")).map (fun p => p.2.individual_probability) ≠
      some 1) := by
  norm_num [calculate_probabilities, setup, final_probs, final_probs_raw,
    dictInsert, successProb, probInfoOf, lookupD, List.find?]

/-- Claim C2 (amended): for a NORMAL item the *reported* individual
probability equals `server_luck / nominal_chance`, with no flooring (so it
can exceed 1, e.g. 20 for chance 5 and luck 100); it is still non-decreasing
in the luck multiplier.  The floored quantity `1 / max(1, chance / luck)` is
used only as the pre-normalization success weight (`successProb`). -/
theorem C2_individual_reported (s s' : SansCalculator) (e : SansEntry)
    (hnd : (s.sans_list.map SansEntry.name).Nodup) (he : e ∈ s.sans_list)
    (hraw : e.is_raw = false) (hc : 0 < e.chance)
    (hlist : s'.sans_list = s.sans_list) (hluck : s.server_luck ≤ s'.server_luck) :
    (((calculate_probabilities s).1.find? (fun p => p.1 == e.name)).map
        (fun p => p.2.individual_probability) = some (s.server_luck / e.chance)) ∧
    (((calculate_probabilities s').1.find? (fun p => p.1 == e.name)).map
        (fun p => p.2.individual_probability) = some (s'.server_luck / e.chance)) ∧
    s.server_luck / e.chance ≤ s'.server_luck / e.chance := by
  have hval : ∀ u : SansCalculator, (u.sans_list.map SansEntry.name).Nodup →
      e ∈ u.sans_list →
      ((calculate_probabilities u).1.find? (fun p => p.1 == e.name)).map
        (fun p => p.2.individual_probability) = some (u.server_luck / e.chance) := by
    intro u hndu heu
    rw [calc_find?_present u e hndu heu]
    simp [probInfoOf, hraw]
  refine ⟨hval s hnd he, ?_, ?_⟩
  · exact hval s' (by rw [hlist]; exact hnd) (by rw [hlist]; exact he)
  · exact (div_le_div_iff_of_pos_right hc).mpr hluck

/-- Witness for C2 (amended) at chance 5, lucks 100 ≤ 200. -/
theorem C2_witness :
    ((((setup [("Fell", 5)] [] [] 100).sans_list.map SansEntry.name).Nodup) ∧
      (0 : ℚ) < 5 ∧ (100 : ℚ) ≤ 200) ∧
    ((((calculate_probabilities (setup [("Fell", 5)] [] [] 100)).1.find?
        (fun p => p.1 == "Fell")).map (fun p => p.2.individual_probability) =
      some ((100 : ℚ) / 5)) ∧
    (((calculate_probabilities (setup [("Fell", 5)] [] [] 200)).1.find?
        (fun p => p.1 == "Fell")).map (fun p => p.2.individual_probability) =
      some ((200 : ℚ) / 5)) ∧
    (100 : ℚ) / 5 ≤ (200 : ℚ) / 5) :=
  ⟨⟨by decide, by decide, by decide⟩,
    C2_individual_reported (setup [("Fell", 5)] [] [] 100)
      (setup [("Fell", 5)] [] [] 200)
      { name := "Fell", chance := 5, is_raw := false }
      (by decide) (by decide) (by decide) (by decide) (by decide) (by decide)⟩

/-! Claim C3 -/

/-- Claim C3: the code violates the claim.  For the catalog containing the
single item `("bad", 0)` (nominal chance 0, NORMAL) under luck 8, the
divisions executed by `calculate_probabilities` use the denominators
`[8, 1, 0, 0, 1]`: the success-weight path does clamp (the `1`), but the
`total_weight` sum (line 138) and the reported `individual_probability`
(line 144) divide by the raw chance `0` — in Python a `ZeroDivisionError`
inside the engine. -/
theorem C3_division_by_zero :
    divisionDenominators (setup [("bad", 0)] [] [] 8) = [8, 1, 0, 0, 1] ∧
    (0 : ℚ) ∈ divisionDenominators (setup [("bad", 0)] [] [] 8) := by
  norm_num [divisionDenominators, entryDenominators, setup, final_probs_raw,
    dictInsert, successProb]

/-! Claim C4 -/

/-- Claim C4 counterexample: for a target name absent from the distribution,
`probability_in_time` returns the plain result pair `(0.0, 0.0)` — no
NotFound condition is signalled, and the caller cannot distinguish this from
a genuine zero probability.  (The other three operations do not signal an
explicit condition either: their `probs[target]` lookup raises a bare
`KeyError` that escapes the engine and is only caught by the HTTP route's
blanket `except`.) -/
theorem C4_counterexample :
    probability_in_time (setup [("Little", 2)] [] [] 8) "ghost" 1 = (0, 0) := by
  have h : (((calculate_probabilities (setup [("Little", 2)] [] [] 8)).1.find?
      (fun p => p.1 == "ghost")).isSome) = false := by decide
  rw [probability_in_time, if_neg (by simp [h])]

/-- Claim C4 (amended): for a target name absent from the distribution,
`probability_in_time` silently returns `(0.0, 0.0)` while
`expected_per_event`, `time_for_expected_first` and `time_for_certainty`
all propagate the failed `probs[target]` lookup as an uncaught `KeyError`
(modelled as `none`) that escapes the engine boundary; no operation returns
an explicit NotFound error value. -/
theorem C4_missing_target (s : SansCalculator) (target : String) (t : ℚ) (c : ℝ)
    (h : ((calculate_probabilities s).1.find? (fun p => p.1 == target)) = none) :
    expected_per_event s target = none ∧
    probability_in_time s target t = (0, 0) ∧
    time_for_expected_first s target = none ∧
    time_for_certainty s target c = none := by
  have hepe : expected_per_event s target = none := by
    rw [expected_per_event, h]
    rfl
  refine ⟨hepe, ?_, ?_, ?_⟩
  · rw [probability_in_time, if_neg (by simp [h])]
  · rw [time_for_expected_first, hepe]
    rfl
  · rw [time_for_certainty, hepe]
    rfl

/-- Witness for C4 (amended) at a concrete state and missing name. -/
theorem C4_witness :
    (((calculate_probabilities (setup [("Little", 2)] [] [] 8)).1.find?
        (fun p => p.1 == "ghost")) = none) ∧
    (expected_per_event (setup [("Little", 2)] [] [] 8) "ghost" = none ∧
      probability_in_time (setup [("Little", 2)] [] [] 8) "ghost" 5 = (0, 0) ∧
      time_for_expected_first (setup [("Little", 2)] [] [] 8) "ghost" = none ∧
      time_for_certainty (setup [("Little", 2)] [] [] 8) "ghost" 0.99 = none) :=
  ⟨by decide, C4_missing_target (setup [("Little", 2)] [] [] 8) "ghost" 5 0.99 (by decide)⟩

/-! Claim C5 -/

/-- Claim C5 counterexample: "clown" is in the default unobtainable (limited)
list, and explicitly supplying it in the caller's custom catalog — the only
re-inclusion a caller could attempt — still leaves it dropped from the
resolved working set.  The code has no included-limited override at all. -/
theorem C5_counterexample :
    "clown" ∉ (resolveWorkingSet [("clown", 69420)] [] [] 8).sans_list.map
      SansEntry.name := by
  decide

/-- Claim C5 (amended): every item whose name is in the unobtainable list
(defaults plus custom additions) is dropped from the working set
unconditionally, for every choice of custom catalog, raw list and luck;
there is no included-limited re-inclusion mechanism. -/
theorem C5_limited_always_dropped (custom_sans : List (String × ℚ))
    (custom_raw custom_unobtainable : List String) (server_luck : ℚ) (name : String)
    (h : name ∈ DEFAULT_UNOBTAINABLE_SANS ++ custom_unobtainable) :
    name ∉ (resolveWorkingSet custom_sans custom_raw custom_unobtainable
      server_luck).sans_list.map SansEntry.name := by
  intro hmem
  rw [resolveWorkingSet, setup] at hmem
  simp only [List.map_map, List.mem_map, Function.comp] at hmem
  rcases hmem with ⟨p, hp, hpname⟩
  have hfil := (List.mem_filter.mp hp).2
  rw [Bool.not_eq_eq_eq_not, Bool.not_true] at hfil
  have hcont : (DEFAULT_UNOBTAINABLE_SANS ++ custom_unobtainable).contains p.1 = true :=
    List.elem_eq_true_of_mem (hpname ▸ h)
  rw [hcont] at hfil
  exact Bool.noConfusion hfil

/-- Witness for C5 (amended): "clown" (a default unobtainable) is dropped. -/
theorem C5_witness :
    ("clown" ∈ DEFAULT_UNOBTAINABLE_SANS ++ []) ∧
    "clown" ∉ (resolveWorkingSet [] [] [] 8).sans_list.map SansEntry.name :=
  ⟨by decide, C5_limited_always_dropped [] [] [] 8 "clown" (by decide)⟩

/-! Claim C6 -/

/-- Claim C6 counterexample: searching "err" does *not* put "error404" first
with "Error" second at score 0.6 — "error".startswith("err") holds, so
"Error" lands in the prefix tier (0.8) and the lexicographic tie-break
('E' < 'e') ranks it above "error404". -/
theorem C6_counterexample :
    search_sans "err" ["Error", "error404", "Fatal error", "Little"] ≠
      [("error404", 0.8), ("Error", 0.6), ("Fatal error", 0.4)] := by
  have h : search_sans "err" ["Error", "error404", "Fatal error", "Little"] =
      [("Error", tierStarts), ("error404", tierStarts), ("Fatal error", tierSub)] := by
    decide
  intro hc
  rw [h] at hc
  have hnames : (["Error", "error404", "Fatal error"] : List String) =
      ["error404", "Error", "Fatal error"] := by
    simpa using congrArg (List.map Prod.fst) hc
  exact absurd hnames (by decide)

/-- Claim C6 (amended): search("err") over ["Error", "error404",
"Fatal error", "Little"] scores both "Error" and "error404" at 0.8 (both
lowercased names start with "err"), ranks "Error" first by the ascending-name
tie-break, then "Fatal error" at 0.4 (substring but not word-boundary, since
the "err" inside "error" is followed by a word character), and excludes
"Little". -/
theorem C6_search_err :
    search_sans "err" ["Error", "error404", "Fatal error", "Little"] =
      [("Error", 0.8), ("error404", 0.8), ("Fatal error", 0.4)] := by
  have h : search_sans "err" ["Error", "error404", "Fatal error", "Little"] =
      [("Error", tierStarts), ("error404", tierStarts), ("Fatal error", tierSub)] := by
    decide
  rw [h, tierStarts_eq, tierSub_eq]

/-! Supporting lemmas for the temporal operations -/

lemma probInfoOf_probability_pos16 (s : SansCalculator) (e : SansEntry)
    (hnd : (s.sans_list.map SansEntry.name).Nodup) (he : e ∈ s.sans_list) :
    0 < 16 * (probInfoOf s (final_probs s) e).probability :=
  mul_pos (by norm_num) (probInfoOf_probability_pos s e hnd he)

lemma events_per_second_pos : 0 < events_per_second := by
  norm_num [events_per_second, time_per_roll]

lemma probability_in_time_present (s : SansCalculator) (e : SansEntry) (t : ℚ)
    (hnd : (s.sans_list.map SansEntry.name).Nodup) (he : e ∈ s.sans_list) :
    probability_in_time s e.name t =
      ((1 : ℝ) - Real.exp (-(((16 * (probInfoOf s (final_probs s) e).probability) *
          (events_per_second * t) : ℚ) : ℝ)),
       (((16 * (probInfoOf s (final_probs s) e).probability) *
          (events_per_second * t) : ℚ) : ℝ)) := by
  rw [probability_in_time, calc_find?_present s e hnd he,
    expected_per_event_present s e hnd he]
  simp

/-! Claim C7 -/

/-- Claim C7 counterexample: with certainty = −1 (outside [0, 1)),
`time_for_certainty` does *not* fail: no validation of the certainty
argument exists in the code, and a (negative, hence meaningless) time is
returned. -/
theorem C7_counterexample :
    time_for_certainty (setup [("Little", 2)] [] [] 1) "Little" (-1) ≠ none := by
  have h : (expected_per_event (setup [("Little", 2)] [] [] 1) "Little").isSome = true := by
    decide
  rcases Option.isSome_iff_exists.mp h with ⟨r, hr⟩
  intro hc
  rw [time_for_certainty, hr] at hc
  simp at hc

/-- Claim C7 (amended): `time_for_certainty` performs no range validation on
`certainty`.  For every item present in the working set the per-second rate
is strictly positive, so for any `certainty < 1` it returns the finite value
`-ln(1 - certainty) / (expected_per_event * events_per_second)` — the
claimed formula — but for `certainty < 0` that value is negative rather
than an InvalidArgument condition (and for `certainty ≥ 1` Python's
`math.log` raises a ValueError instead of signalling InvalidArgument). -/
theorem C7_no_validation (s : SansCalculator) (e : SansEntry) (c : ℝ)
    (hnd : (s.sans_list.map SansEntry.name).Nodup) (he : e ∈ s.sans_list)
    (_hne : e.name ≠ "") (_hl : 1 ≤ s.server_luck) (_hc : c < 1) :
    ∃ r : ℚ, expected_per_event s e.name = some r ∧ 0 < r ∧
      time_for_certainty s e.name c =
        some (TimeR.finite (-Real.log (1 - c) /
          ((r : ℝ) * ((events_per_second : ℚ) : ℝ)))) ∧
      (c < 0 → -Real.log (1 - c) / ((r : ℝ) * ((events_per_second : ℚ) : ℝ)) < 0) := by
  have hr : 0 < 16 * (probInfoOf s (final_probs s) e).probability :=
    probInfoOf_probability_pos16 s e hnd he
  refine ⟨16 * (probInfoOf s (final_probs s) e).probability,
    expected_per_event_present s e hnd he, hr, ?_, ?_⟩
  · rw [time_for_certainty, expected_per_event_present s e hnd he]
    simp only [Option.map_some']
    rw [if_neg (not_le.mpr hr)]
  · intro hc0
    have hlog : 0 < Real.log (1 - c) := Real.log_pos (by linarith)
    have hden : (0 : ℝ) < (((16 * (probInfoOf s (final_probs s) e).probability : ℚ)) : ℝ) *
        ((events_per_second : ℚ) : ℝ) := by
      apply mul_pos
      · exact_mod_cast hr
      · exact_mod_cast events_per_second_pos
    exact div_neg_of_neg_of_pos (by linarith) hden

/-- Witness for C7 (amended) at certainty 1/2 on a one-item working set. -/
theorem C7_witness :
    ((((setup [("Little", 2)] [] [] 1).sans_list.map SansEntry.name).Nodup) ∧
      ({ name := "Little", chance := 2, is_raw := false } : SansEntry) ∈
        (setup [("Little", 2)] [] [] 1).sans_list ∧
      ("Little" : String) ≠ "" ∧ (1 : ℚ) ≤ 1 ∧ ((1 : ℝ)/2) < 1) ∧
    (∃ r : ℚ, expected_per_event (setup [("Little", 2)] [] [] 1) "Little" = some r ∧
      0 < r ∧
      time_for_certainty (setup [("Little", 2)] [] [] 1) "Little" ((1 : ℝ)/2) =
        some (TimeR.finite (-Real.log (1 - (1 : ℝ)/2) /
          ((r : ℝ) * ((events_per_second : ℚ) : ℝ)))) ∧
      (((1 : ℝ)/2) < 0 → -Real.log (1 - (1 : ℝ)/2) /
          ((r : ℝ) * ((events_per_second : ℚ) : ℝ)) < 0)) :=
  ⟨⟨by decide, by decide, by decide, by decide, by norm_num⟩,
    C7_no_validation (setup [("Little", 2)] [] [] 1)
      { name := "Little", chance := 2, is_raw := false } ((1 : ℝ)/2)
      (by decide) (by decide) (by decide) (by decide) (by norm_num)⟩

/-! Claim C8 -/

/-- If `q` occurs contiguously at some index then it is a substring. -/
lemma substringB_of_occursAt (q s : List Char) (i : Nat) (hne : q ≠ [])
    (h : occursAt q s i = true) : substringB q s = true := by
  have hi : i ≤ s.length := by
    by_contra hgt
    push_neg at hgt
    have hdrop : s.drop i = [] := List.drop_eq_nil_of_le (le_of_lt hgt)
    rw [occursAt, hdrop] at h
    simp only [List.take_nil, decide_eq_true_eq] at h
    exact hne h.symm
  rw [substringB, List.any_eq_true]
  exact ⟨i, List.mem_range.mpr (Nat.lt_succ_of_le hi), h⟩

/-- A word-boundary match implies a substring match. -/
lemma substringB_of_wordBoundary (q s : List Char) (hne : q ≠ [])
    (h : wordBoundaryB q s = true) : substringB q s = true := by
  rw [wordBoundaryB, List.any_eq_true] at h
  rcases h with ⟨i, _, hi⟩
  rw [Bool.and_eq_true, Bool.and_eq_true] at hi
  exact substringB_of_occursAt q s i hne hi.1.1

/-- Equality implies a substring match (occurrence at index 0). -/
lemma substringB_of_eq (q s : List Char) (hne : q ≠ []) (h : s = q) :
    substringB q s = true := by
  apply substringB_of_occursAt q s 0 hne
  subst h
  rw [occursAt]
  simp

/-- On queries containing no `'.'`, the unescaped-regex fuzzy matcher
coincides with the plain subsequence test. -/
lemma fuzzyMatch_eq_subsequenceSpec (s q : List Char) (hq : ∀ c ∈ q, c ≠ '.') :
    fuzzyMatch q s = subsequenceSpec q s := by
  induction s generalizing q with
  | nil => cases q <;> simp [fuzzyMatch, subsequenceSpec]
  | cons c cs ih =>
    cases q with
    | nil => simp [fuzzyMatch, subsequenceSpec]
    | cons p ps =>
      have hp : p ≠ '.' := hq p (List.mem_cons_self p ps)
      have hcharEq : charPatMatches p c = (p == c) := by
        rw [charPatMatches]
        have hdot : (p == '.') = false := by simpa using hp
        rw [hdot, Bool.false_or]
      rw [fuzzyMatch, subsequenceSpec, hcharEq]
      by_cases hpc : (p == c) = true
      · rw [hpc]
        simp only [if_true]
        exact ih ps (fun x hx => hq x (List.mem_cons_of_mem p hx))
      · have hpc' : (p == c) = false := by simpa using hpc
        rw [hpc']
        simp only [Bool.false_eq_true, if_false]
        exact ih (p :: ps) hq

/-- Claim C8 counterexample: the query ".z" is awarded the fuzzy-tier score
0.2 against the name "az" although ".z" is *not* a subsequence of "az" —
the unescaped `'.'` acts as a regex wildcard in `'.*'.join(query)`. -/
theorem C8_counterexample :
    search_sans ".z" ["az"] = [("az", 0.2)] ∧
    subsequenceSpec (lowerStr ".z") (lowerStr "az") = false := by
  constructor
  · have h : search_sans ".z" ["az"] = [("az", tierFuzzy)] := by decide
    rw [h, tierFuzzy_eq]
  · decide

/-- Claim C8 (amended): for a non-empty query free of regex metacharacters,
the fuzzy tier awards 0.2 exactly when the query is a subsequence of the
(lowercased) name without being a contiguous substring of it (higher tiers
take precedence on substrings); for queries containing metacharacters the
criterion diverges from subsequence matching ('.' is a wildcard, and other
metacharacters change or break the pattern). -/
theorem C8_fuzzy_tier (q s : List Char) (hne : q ≠ [])
    (hq : ∀ c ∈ q, c ∉ regexSpecials) :
    matchScore q s = 0.2 ↔
      (subsequenceSpec q s = true ∧ substringB q s = false) := by
  have hdot : ∀ c ∈ q, c ≠ '.' := by
    intro c hc hcd
    exact hq c hc (hcd ▸ (by decide : ('.' : Char) ∈ regexSpecials))
  have hfz := fuzzyMatch_eq_subsequenceSpec s q hdot
  have n1 : tierExact ≠ (0.2 : ℚ) := by rw [tierExact_eq]; norm_num
  have n2 : tierStarts ≠ (0.2 : ℚ) := by rw [tierStarts_eq]; norm_num
  have n3 : tierWord ≠ (0.2 : ℚ) := by rw [tierWord_eq]; norm_num
  have n4 : tierSub ≠ (0.2 : ℚ) := by rw [tierSub_eq]; norm_num
  have n0 : (0 : ℚ) ≠ (0.2 : ℚ) := by norm_num
  rw [matchScore]
  by_cases h1 : s = q
  · have hsub := substringB_of_eq q s hne h1
    rw [if_pos h1]
    constructor
    · intro h; exact absurd h n1
    · rintro ⟨_, hfalse⟩; rw [hsub] at hfalse; exact Bool.noConfusion hfalse
  · rw [if_neg h1]
    by_cases h2 : occursAt q s 0 = true
    · have hsub := substringB_of_occursAt q s 0 hne h2
      rw [if_pos h2]
      constructor
      · intro h; exact absurd h n2
      · rintro ⟨_, hfalse⟩; rw [hsub] at hfalse; exact Bool.noConfusion hfalse
    · rw [if_neg h2]
      by_cases h3 : wordBoundaryB q s = true
      · have hsub := substringB_of_wordBoundary q s hne h3
        rw [if_pos h3]
        constructor
        · intro h; exact absurd h n3
        · rintro ⟨_, hfalse⟩; rw [hsub] at hfalse; exact Bool.noConfusion hfalse
      · rw [if_neg h3]
        by_cases h4 : substringB q s = true
        · rw [if_pos h4]
          constructor
          · intro h; exact absurd h n4
          · rintro ⟨_, hfalse⟩; rw [h4] at hfalse; exact Bool.noConfusion hfalse
        · rw [if_neg h4]
          have h4' : substringB q s = false := Bool.eq_false_iff.mpr h4
          by_cases h5 : subsequenceSpec q s = true
          · rw [if_pos (hfz ▸ h5 : fuzzyMatch q s = true)]
            constructor
            · intro _; exact ⟨h5, h4'⟩
            · intro _; exact tierFuzzy_eq
          · have h5' : fuzzyMatch q s = false := by
              rw [hfz]; exact Bool.eq_false_iff.mpr h5
            rw [if_neg (by rw [h5']; exact Bool.noConfusion : ¬ fuzzyMatch q s = true)]
            constructor
            · intro h; exact absurd h n0
            · rintro ⟨htrue, _⟩; exact absurd htrue h5

/-- Witness for C8 (amended): "ab" against "axb" — a subsequence that is not
a substring, awarded exactly 0.2. -/
theorem C8_witness :
    ("ab".data ≠ [] ∧ ∀ c ∈ "ab".data, c ∉ regexSpecials) ∧
    (matchScore "ab".data "axb".data = 0.2 ↔
      (subsequenceSpec "ab".data "axb".data = true ∧
        substringB "ab".data "axb".data = false)) :=
  ⟨⟨by decide, by decide⟩, C8_fuzzy_tier "ab".data "axb".data (by decide) (by decide)⟩

/-! Claim C9 -/

/-- Claim C9: for every item present in the working set,
`probability_in_time` returns probability 0 at elapsed time 0, and the
probability is monotonically non-decreasing in the elapsed time. -/
theorem C9_prob_in_time_monotone (s : SansCalculator) (e : SansEntry) (t1 t2 : ℚ)
    (hnd : (s.sans_list.map SansEntry.name).Nodup) (he : e ∈ s.sans_list)
    (_hne : e.name ≠ "") (_hl : 1 ≤ s.server_luck) (ht : t1 ≤ t2) :
    (probability_in_time s e.name 0).1 = 0 ∧
    (probability_in_time s e.name t1).1 ≤ (probability_in_time s e.name t2).1 := by
  have hr : 0 ≤ 16 * (probInfoOf s (final_probs s) e).probability :=
    le_of_lt (probInfoOf_probability_pos16 s e hnd he)
  constructor
  · rw [probability_in_time_present s e 0 hnd he]
    simp
  · rw [probability_in_time_present s e t1 hnd he,
      probability_in_time_present s e t2 hnd he]
    simp only
    apply sub_le_sub_left
    apply Real.exp_le_exp.mpr
    apply neg_le_neg
    apply Rat.cast_le.mpr
    exact mul_le_mul_of_nonneg_left
      (mul_le_mul_of_nonneg_left ht (le_of_lt events_per_second_pos)) hr

/-- Witness for C9 on a concrete working set with times 1 ≤ 2. -/
theorem C9_witness :
    ((((setup [("Little", 2)] [] [] 8).sans_list.map SansEntry.name).Nodup) ∧
      ({ name := "Little", chance := 2, is_raw := false } : SansEntry) ∈
        (setup [("Little", 2)] [] [] 8).sans_list ∧
      ("Little" : String) ≠ "" ∧ (1 : ℚ) ≤ 8 ∧ (1 : ℚ) ≤ 2) ∧
    ((probability_in_time (setup [("Little", 2)] [] [] 8) "Little" 0).1 = 0 ∧
      (probability_in_time (setup [("Little", 2)] [] [] 8) "Little" 1).1 ≤
        (probability_in_time (setup [("Little", 2)] [] [] 8) "Little" 2).1) :=
  ⟨⟨by decide, by decide, by decide, by decide, by decide⟩,
    C9_prob_in_time_monotone (setup [("Little", 2)] [] [] 8)
      { name := "Little", chance := 2, is_raw := false } 1 2
      (by decide) (by decide) (by decide) (by decide) (by decide)⟩

/-! Claim C10 -/

/-- Claim C10: every item present in a working set has a strictly positive
normalized probability, and `time_for_expected_first` consequently returns
a finite positive time for it — never the infinite sentinel. -/
theorem C10_finite_first_time (s : SansCalculator) (e : SansEntry)
    (hnd : (s.sans_list.map SansEntry.name).Nodup) (he : e ∈ s.sans_list)
    (_hne : e.name ≠ "") (_hl : 1 ≤ s.server_luck) :
    ∃ info : ProbInfo,
      (calculate_probabilities s).1.find? (fun p => p.1 == e.name) =
        some (e.name, info) ∧
      0 < info.probability ∧
      time_for_expected_first s e.name =
        some (TimeQ.finite (1 / ((16 * info.probability) * events_per_second))) ∧
      0 < 1 / ((16 * info.probability) * events_per_second) := by
  have hr : 0 < 16 * (probInfoOf s (final_probs s) e).probability :=
    probInfoOf_probability_pos16 s e hnd he
  refine ⟨probInfoOf s (final_probs s) e, calc_find?_present s e hnd he,
    probInfoOf_probability_pos s e hnd he, ?_, ?_⟩
  · rw [time_for_expected_first, expected_per_event_present s e hnd he]
    simp only [Option.map_some']
    rw [if_neg (not_le.mpr hr)]
  · exact div_pos one_pos (mul_pos hr events_per_second_pos)

/-- Witness for C10 on a concrete working set. -/
theorem C10_witness :
    ((((setup [("Little", 2)] [] [] 8).sans_list.map SansEntry.name).Nodup) ∧
      ({ name := "Little", chance := 2, is_raw := false } : SansEntry) ∈
        (setup [("Little", 2)] [] [] 8).sans_list ∧
      ("Little" : String) ≠ "" ∧ (1 : ℚ) ≤ 8) ∧
    (∃ info : ProbInfo,
      (calculate_probabilities (setup [("Little", 2)] [] [] 8)).1.find?
          (fun p => p.1 == "Little") = some ("Little", info) ∧
      0 < info.probability ∧
      time_for_expected_first (setup [("Little", 2)] [] [] 8) "Little" =
        some (TimeQ.finite (1 / ((16 * info.probability) * events_per_second))) ∧
      0 < 1 / ((16 * info.probability) * events_per_second)) :=
  ⟨⟨by decide, by decide, by decide, by decide⟩,
    C10_finite_first_time (setup [("Little", 2)] [] [] 8)
      { name := "Little", chance := 2, is_raw := false }
      (by decide) (by decide) (by decide) (by decide)⟩

end RngCalc
